import Mathlib

/-!
Verification of the server-info plugin (`main.py`).

The Python source is shallowly embedded: pure computations become Lean
functions on `Int`/`Nat`/`ℚ`/`String`, reads of `/proc` pseudo-files become
`Option`-valued oracle inputs (with `none` standing for an unreadable or
malformed source, i.e. a caught exception or an explicit `None`), and the
one piece of mutable state (the cached CPU sample) is threaded explicitly
through a step function.  Python floats are idealised as rationals.
-/

/-- A character is Python `str.strip` whitespace (ASCII fragment, which is
what actually occurs in command arguments). -/
def isPySpace (c : Char) : Bool :=
  c == ' ' || c == '\t' || c == '\n' || c == '\r' || c == '\x0b' || c == '\x0c'

/-- ASCII lowering of one character, as Python `str.lower` acts on ASCII. -/
def lowerChar (c : Char) : Char :=
  if 'A' ≤ c ∧ c ≤ 'Z' then Char.ofNat (c.toNat + 32) else c

/-- Python `s.strip()`: drop whitespace from both ends. -/
def pyStrip (s : String) : String :=
  ⟨((s.data.dropWhile isPySpace).reverse.dropWhile isPySpace).reverse⟩

/-- Python `s.lower()` (ASCII fragment). -/
def pyLower (s : String) : String :=
  ⟨s.data.map lowerChar⟩

/-- Lexicographic `≤` on code-point lists: Python's string comparison used
by `sorted`. -/
def charListLe : List Char → List Char → Bool
  | [], _ => true
  | _ :: _, [] => false
  | a :: as, b :: bs =>
    if a.toNat < b.toNat then true
    else if b.toNat < a.toNat then false
    else charListLe as bs

/-- A cumulative CPU counter sample `(total_ticks, idle_ticks)` as read from
the first line of `/proc/stat`. -/
abbrev CpuSample := Int × Int

/-- Lines 107-112 of `main.py`: the percent computation shared by the cold
and warm paths of `_get_cpu_percent`. -/
def cpuPercentCalc (prev_total prev_idle total idle : Int) : Option ℚ :=
  let d_total := total - prev_total
  let d_idle := idle - prev_idle
  if d_total ≤ 0 then none
  else
    let used := max 0 (d_total - d_idle)
    some (((used : ℚ) / (d_total : ℚ)) * 100)

/-- Lines 79-88 of `main.py`: `_read_cpu_stat` parsing of the first
`/proc/stat` line, given its label field and the numeric fields.
`len(parts) < 5` is `values.length < 4`; `idle = values[3] + values[4]`
with the fifth field defaulting to 0. -/
def _read_cpu_stat (label : String) (values : List Int) : Option CpuSample :=
  if label = "cpu" ∧ 4 ≤ values.length then
    some (values.sum, values.getD 3 0 + values.getD 4 0)
  else none

/-- Lines 90-114 of `main.py`: one call of `_get_cpu_percent`, with the
cached sample `st` as explicit state and the outcomes of the first and
(cold path only) second reads of `/proc/stat` as oracle inputs; `none`
covers both a malformed line and a raised-and-caught exception.  Returns
the result and the new cached sample. -/
def _get_cpu_percent_step (st : Option CpuSample) (read1 read2 : Option CpuSample) :
    Option ℚ × Option CpuSample :=
  match read1 with
  | none => (none, st)
  | some curr =>
    match st with
    | none =>
      match read2 with
      | none => (none, st)
      | some next_stat =>
        (cpuPercentCalc curr.1 curr.2 next_stat.1 next_stat.2, some next_stat)
    | some prev =>
      (cpuPercentCalc prev.1 prev.2 curr.1 curr.2, some curr)

/-- The unit table of `_format_bytes` (line 16 of `main.py`). -/
def units : List String := ["B", "KB", "MB", "GB", "TB"]

/-- The `while size >= 1024 and idx < len(units) - 1` loop of
`_format_bytes` (lines 18-20).  The loop body increments `idx` and the
guard requires `idx < 4`, so at most `units.length - 1 = 4` iterations run;
the structural fuel argument is started at that bound and is therefore
never exhausted before the guard fails. -/
def formatLoop : Nat → ℚ → Nat → ℚ × Nat
  | 0, size, idx => (size, idx)
  | fuel + 1, size, idx =>
    if 1024 ≤ size ∧ idx < units.length - 1 then
      formatLoop fuel (size / 1024) (idx + 1)
    else (size, idx)

/-- The numeric part of `_format_bytes`: clamp to non-negative (line 15)
and run the division loop. -/
def _format_bytes_core (n : Int) : ℚ × Nat :=
  formatLoop (units.length - 1) ((max 0 n : Int) : ℚ) 0

/-- Python `f"{x:.1f}"` on an exact rational: round `10x` to an integer,
ties to even, and print one decimal digit. -/
def fmt1 (q : ℚ) : String :=
  let scaled : ℚ := q * 10
  let fl : Int := ⌊scaled⌋
  let r : Int :=
    if scaled - (fl : ℚ) < 1 / 2 then fl
    else if (1 : ℚ) / 2 < scaled - (fl : ℚ) then fl + 1
    else if fl % 2 = 0 then fl else fl + 1
  toString (r / 10) ++ "." ++ toString (r % 10)

/-- Lines 14-21 of `main.py`: `_format_bytes`. -/
def _format_bytes (n : Int) : String :=
  fmt1 (_format_bytes_core n).1 ++ (units.getD (_format_bytes_core n).2 "")

/-- Lines 116-133 of `main.py`: `_get_system_memory_bytes`, given the
`MemTotal:` and `MemAvailable:` kilobyte counts extracted from
`/proc/meminfo` (`none` when the field is missing or the file unreadable).
Returns `(used, total)` in bytes. -/
def _get_system_memory_bytes (mem_total_kb mem_avail_kb : Option Int) :
    Option Int × Option Int :=
  match mem_total_kb, mem_avail_kb with
  | some t, some a => (some (max 0 ((t - a) * 1024)), some (t * 1024))
  | _, _ => (none, none)

/-- Lines 135-144 of `main.py`: `_get_process_rss_bytes`, given the `VmRSS:`
kilobyte count from `/proc/self/status` (`none` when absent/unreadable). -/
def _get_process_rss_bytes (vmrss_kb : Option Int) : Option Int :=
  match vmrss_kb with
  | some k => some (k * 1024)
  | none => none

/-- The inputs of one `_server_info_text` call: the always-available facts
and the optional metrics, each `none` on failure of its source. -/
structure Metrics where
  hostname : String
  platformDesc : String
  pythonVersion : String
  pid : Nat
  uptimeText : String
  cpuCount : Option Nat
  cpuPercent : Option ℚ
  memUsed : Option Int
  memTotal : Option Int
  procRss : Option Int
  loadAvg : Option (ℚ × ℚ × ℚ)
  diskStat : Option (Int × Int × Int)

/-- One line of the server report, with the data it renders. -/
inductive ReportLine where
  | header
  | host (h : String)
  | plat (p : String)
  | python (v : String)
  | pid (n : Nat)
  | uptime (u : String)
  | cores (n : Nat)
  | cpu (pct : ℚ)
  | mem (used total : Int) (pct : ℚ)
  | procMem (n : Int)
  | load (l1 l5 l15 : ℚ)
  | disk (used total : Int)
deriving DecidableEq

/-- Line 50-52 of `main.py`: the CPU line, present iff the percent is. -/
def cpuChunk (o : Option ℚ) : List ReportLine :=
  match o with
  | some p => [.cpu p]
  | none => []

/-- Lines 53-57 of `main.py`: the memory line, present iff `mem_used` is not
`None` and `mem_total` is truthy (not `None` and nonzero). -/
def memChunk (u t : Option Int) : List ReportLine :=
  match u, t with
  | some u0, some t0 =>
    if t0 = 0 then [] else [.mem u0 t0 (((u0 : ℚ) / (t0 : ℚ)) * 100)]
  | _, _ => []

/-- Lines 58-60 of `main.py`: the process-RSS line. -/
def rssChunk (o : Option Int) : List ReportLine :=
  match o with
  | some r => [.procMem r]
  | none => []

/-- Lines 61-66 of `main.py`: the load-average line. -/
def loadChunk (o : Option (ℚ × ℚ × ℚ)) : List ReportLine :=
  match o with
  | some (a, b, c) => [.load a b c]
  | none => []

/-- Lines 67-74 of `main.py`: the disk line from `statvfs` fields
`(f_frsize, f_blocks, f_bavail)`. -/
def diskChunk (o : Option (Int × Int × Int)) : List ReportLine :=
  match o with
  | some (frsize, blocks, bavail) =>
    [.disk (max 0 (frsize * blocks - frsize * bavail)) (frsize * blocks)]
  | none => []

/-- Lines 41-75 of `main.py`: `_server_info_text`, as the list of lines it
renders. -/
def _server_info_lines (m : Metrics) : List ReportLine :=
  [.header, .host m.hostname, .plat m.platformDesc, .python m.pythonVersion,
   .pid m.pid, .uptime m.uptimeText, .cores (m.cpuCount.getD 0)] ++
  cpuChunk m.cpuPercent ++ memChunk m.memUsed m.memTotal ++
  rssChunk m.procRss ++ loadChunk m.loadAvg ++ diskChunk m.diskStat

/-- A sibling plugin entry as seen by `_plugins_info_text`. -/
structure PluginStar where
  name : String
  version : String
  activated : Bool
deriving DecidableEq

/-- The sort key of line 154/160: `str(name).lower()`, compared by Python
string order. -/
def starRel (a b : PluginStar) : Prop :=
  charListLe (pyLower a.name).data (pyLower b.name).data = true

instance : DecidableRel starRel := fun a b => by
  unfold starRel; infer_instance

/-- An entry line `f"- {s.name} ({s.version})"` (lines 155/161). -/
def entryLine (s : PluginStar) : String :=
  "- " ++ s.name ++ " (" ++ s.version ++ ")"

/-- The counts line `f"插件状态：启用 {len(enabled)} / 总计 {len(stars)}"`
(line 151). -/
def countsLine (enabledCount totalCount : Nat) : String :=
  "插件状态：启用 " ++ toString enabledCount ++ " / 总计 " ++ toString totalCount

/-- Lines 146-162 of `main.py`: `_plugins_info_text`, as the list of lines.
Python `sorted` is a stable sort by the lowered name, whose output the
stable `List.insertionSort` reproduces exactly. -/
def _plugins_info_lines (stars : List PluginStar) : List String :=
  let enabled := stars.filter (·.activated)
  let disabled := stars.filter (fun s => !s.activated)
  [countsLine enabled.length stars.length, "已启用插件："] ++
  (if enabled.isEmpty then ["- 无"]
   else (List.insertionSort starRel enabled).map entryLine) ++
  (if disabled.isEmpty then []
   else "未启用插件：" :: (List.insertionSort starRel disabled).map entryLine)

/-- Line 162: the joined report text. -/
def _plugins_info_text (stars : List PluginStar) : String :=
  String.intercalate "\n" (_plugins_info_lines stars)

/-- Line 200 of `main.py`: the usage reply. -/
def usage_text : String := "用法：/serverinfo [info|plugins|all]"

/-- Lines 188-200 of `main.py`: the `serverinfo` command body, with the two
report texts as parameters (they are produced independently of `args`). -/
def serverinfo_dispatch (args serverText pluginsText : String) : String :=
  let sub := pyLower (pyStrip args)
  if sub ∈ (["", "info", "server", "服务器"] : List String) then serverText
  else if sub ∈ (["plugins", "plugin", "pl", "插件"] : List String) then pluginsText
  else if sub ∈ (["all", "full"] : List String) then
    serverText ++ "\n\n" ++ pluginsText
  else usage_text

/-- Rendering a rational whose tenfold is the integer `k` prints `k / 10`
and `k % 10` around the decimal point. -/
lemma fmt1_int (q : ℚ) (k : Int) (h : q * 10 = (k : ℚ)) :
    fmt1 q = toString (k / 10) ++ "." ++ toString (k % 10) := by
  unfold fmt1
  rw [h]
  simp only [Int.floor_intCast]
  norm_num

/-- The division loop keeps the size non-negative and the unit index within
the unit table. -/
lemma formatLoop_invariant (fuel : Nat) :
    ∀ (size : ℚ) (idx : Nat), 0 ≤ size → idx ≤ 4 →
      0 ≤ (formatLoop fuel size idx).1 ∧ (formatLoop fuel size idx).2 ≤ 4 := by
  induction fuel with
  | zero => exact fun size idx h0 h4 => ⟨h0, h4⟩
  | succ fuel ih =>
    intro size idx h0 h4
    simp only [formatLoop]
    split
    · next h =>
      have h2 : idx < 4 := by simpa [units] using h.2
      exact ih _ _ (div_nonneg h0 (by norm_num)) (by omega)
    · exact ⟨h0, h4⟩

/-- C1: for samples with positive total delta, the CPU-percent computation
returns `100 * max 0 (Δtotal - Δidle) / Δtotal`; on the synthetic samples
`total = (100, 200)`, `idle = (50, 90)` it returns exactly `60`. -/
theorem cpu_percent_formula :
    (∀ prev_total prev_idle total idle : Int,
        0 < total - prev_total →
        cpuPercentCalc prev_total prev_idle total idle =
          some (100 * ((max 0 ((total - prev_total) - (idle - prev_idle)) : Int) : ℚ) /
            ((total - prev_total : Int) : ℚ)))
    ∧ cpuPercentCalc 100 50 200 90 = some 60 := by
  constructor
  · intro pt pi t i h
    simp only [cpuPercentCalc]
    rw [if_neg (by omega)]
    congr 1
    ring
  · norm_num [cpuPercentCalc]

/-- Witness for C1 at the synthetic samples of the spec. -/
theorem cpu_percent_formula_witness :
    0 < (200 : Int) - 100 ∧
    cpuPercentCalc 100 50 200 90 =
      some (100 * ((max 0 (((200 : Int) - 100) - (90 - 50)) : Int) : ℚ) /
        (((200 : Int) - 100 : Int) : ℚ)) :=
  ⟨by decide, cpu_percent_formula.1 100 50 200 90 (by decide)⟩

/-- C2: whenever the total-tick delta is non-positive, the CPU-percent
computation returns the unavailable value `none`. -/
theorem cpu_percent_unavailable :
    ∀ prev_total prev_idle total idle : Int,
      total - prev_total ≤ 0 →
      cpuPercentCalc prev_total prev_idle total idle = none := by
  intro pt pi t i h
  simp only [cpuPercentCalc]
  rw [if_pos h]

/-- Witness for C2 on equal samples (zero delta). -/
theorem cpu_percent_unavailable_witness :
    (100 : Int) - 100 ≤ 0 ∧ cpuPercentCalc 100 50 100 90 = none :=
  ⟨by decide, cpu_percent_unavailable 100 50 100 90 (by decide)⟩

/-- C3: the CPU-percent call is a two-state machine.  Cold (no stored
sample) with two readable samples A and B computes the percent from (A, B)
and stores B; warm (stored sample s) with a readable sample C computes from
(s, C) and stores C.  In both cases the new stored sample is the most
recently read sample. -/
theorem cpu_percent_state_machine :
    ∀ (a b s c : CpuSample) (r2 : Option CpuSample),
      _get_cpu_percent_step none (some a) (some b) =
        (cpuPercentCalc a.1 a.2 b.1 b.2, some b) ∧
      _get_cpu_percent_step (some s) (some c) r2 =
        (cpuPercentCalc s.1 s.2 c.1 c.2, some c) :=
  fun _ _ _ _ _ => ⟨rfl, rfl⟩

/-- C4: the byte formatter clamps to non-negative and divides by 1024 while
a larger unit remains, so the rendered size is never negative and the unit
index never exceeds the TB slot; on the spec's examples it renders
`"0.0B"`, `"1.5KB"` and `"1.0TB"`. -/
theorem format_bytes_spec :
    (∀ n : Int, 0 ≤ (_format_bytes_core n).1 ∧ (_format_bytes_core n).2 ≤ 4)
    ∧ _format_bytes 0 = "0.0B"
    ∧ _format_bytes 1536 = "1.5KB"
    ∧ _format_bytes (1024 ^ 4) = "1.0TB" := by
  refine ⟨fun n => ?_, ?_, ?_, ?_⟩
  · have h0 : (0 : ℚ) ≤ ((max 0 n : Int) : ℚ) := by
      exact_mod_cast le_max_left 0 n
    exact formatLoop_invariant (units.length - 1) _ 0 h0 (by norm_num)
  · have hc : _format_bytes_core 0 = (0, 0) := by
      norm_num [_format_bytes_core, formatLoop, units]
    unfold _format_bytes
    rw [hc, fmt1_int 0 0 (by norm_num)]
    decide
  · have hc : _format_bytes_core 1536 = (3 / 2, 1) := by
      norm_num [_format_bytes_core, formatLoop, units]
    unfold _format_bytes
    rw [hc, fmt1_int (3 / 2) 15 (by norm_num)]
    decide
  · have hc : _format_bytes_core (1024 ^ 4) = (1, 4) := by
      norm_num [_format_bytes_core, formatLoop, units]
    unfold _format_bytes
    rw [hc, fmt1_int 1 10 (by norm_num)]
    decide

/-- A concrete metrics record whose memory fields come from the fallback
accessor on the spec's `total_kb = 1000`, `avail_kb = 400` example. -/
def exampleMetrics : Metrics where
  hostname := "h"
  platformDesc := "p"
  pythonVersion := "3.11.0"
  pid := 1
  uptimeText := "0:00:01"
  cpuCount := some 4
  cpuPercent := none
  memUsed := (_get_system_memory_bytes (some 1000) (some 400)).1
  memTotal := (_get_system_memory_bytes (some 1000) (some 400)).2
  procRss := none
  loadAvg := none
  diskStat := none

/-- C5: the memory fallback returns `total_kb * 1024` bytes total and
`max 0 (total_kb - avail_kb) * 1024` bytes used; on `total_kb = 1000`,
`avail_kb = 400` it yields `used = 600 * 1024` bytes, and the report then
carries a memory percent of exactly `60`. -/
theorem system_memory_spec :
    (∀ t a : Int,
        _get_system_memory_bytes (some t) (some a) =
          (some (max 0 (t - a) * 1024), some (t * 1024)))
    ∧ _get_system_memory_bytes (some 1000) (some 400) =
        (some (600 * 1024), some (1000 * 1024))
    ∧ ReportLine.mem (600 * 1024) (1000 * 1024) 60 ∈ _server_info_lines exampleMetrics := by
  refine ⟨fun t a => ?_, by decide, ?_⟩
  · simp only [_get_system_memory_bytes, Prod.mk.injEq, Option.some.injEq]
    refine ⟨?_, trivial⟩
    rcases le_total (t - a) 0 with h | h
    · rw [max_eq_left (by nlinarith), max_eq_left h, zero_mul]
    · rw [max_eq_right (by nlinarith), max_eq_right h]
  · norm_num [_server_info_lines, exampleMetrics, memChunk, cpuChunk, rssChunk,
      loadChunk, diskChunk, _get_system_memory_bytes, List.mem_append]

/-- The lexicographic comparison is total. -/
lemma charListLe_total : ∀ as bs : List Char,
    charListLe as bs = true ∨ charListLe bs as = true := by
  intro as
  induction as with
  | nil => intro bs; left; rfl
  | cons a as ih =>
    intro bs
    cases bs with
    | nil => right; rfl
    | cons b bs =>
      rcases Nat.lt_trichotomy a.toNat b.toNat with h | h | h
      · left; simp [charListLe, h]
      · rcases ih bs with h2 | h2
        · left; simp [charListLe, h, h2]
        · right; simp [charListLe, h, h2]
      · right; simp [charListLe, h]

/-- The lexicographic comparison is transitive. -/
lemma charListLe_trans : ∀ as bs cs : List Char,
    charListLe as bs = true → charListLe bs cs = true →
    charListLe as cs = true := by
  intro as
  induction as with
  | nil => intro bs cs _ _; rfl
  | cons a as ih =>
    intro bs cs h1 h2
    cases bs with
    | nil => simp [charListLe] at h1
    | cons b bs =>
      cases cs with
      | nil => simp [charListLe] at h2
      | cons c cs =>
        simp only [charListLe] at h1 h2 ⊢
        rcases Nat.lt_trichotomy a.toNat b.toNat with hab | hab | hab <;>
          rcases Nat.lt_trichotomy b.toNat c.toNat with hbc | hbc | hbc
        · simp [Nat.lt_trans hab hbc]
        · simp [hbc ▸ hab]
        · rw [if_neg (by omega), if_pos hbc] at h2; exact absurd h2 (by simp)
        · simp [hab ▸ hbc]
        · rw [if_neg (by omega), if_neg (by omega)] at h1 h2 ⊢
          exact ih bs cs h1 h2
        · rw [if_neg (by omega), if_pos hbc] at h2; exact absurd h2 (by simp)
        · rw [if_neg (by omega), if_pos hab] at h1; exact absurd h1 (by simp)
        · rw [if_neg (by omega), if_pos hab] at h1; exact absurd h1 (by simp)
        · rw [if_neg (by omega), if_pos hab] at h1; exact absurd h1 (by simp)

instance : IsTotal PluginStar starRel :=
  ⟨fun _ _ => charListLe_total _ _⟩

instance : IsTrans PluginStar starRel :=
  ⟨fun _ _ _ => charListLe_trans _ _ _⟩

/-- A line of the CPU chunk is a CPU line of a present percent. -/
lemma mem_cpuChunk_ex {o : Option ℚ} {l : ReportLine} (h : l ∈ cpuChunk o) :
    ∃ p, o = some p ∧ l = .cpu p := by
  cases o with
  | none => simp [cpuChunk] at h
  | some p => simp [cpuChunk] at h; exact ⟨p, rfl, h⟩

/-- A line of the memory chunk is a memory line of present values with a
nonzero total, and carries the percent `used / total * 100`. -/
lemma mem_memChunk_ex {mu mt : Option Int} {l : ReportLine}
    (h : l ∈ memChunk mu mt) :
    ∃ u t, mu = some u ∧ mt = some t ∧ t ≠ 0 ∧
      l = .mem u t (((u : ℚ) / (t : ℚ)) * 100) := by
  cases mu with
  | none => simp [memChunk] at h
  | some u0 =>
    cases mt with
    | none => simp [memChunk] at h
    | some t0 =>
      by_cases h0 : t0 = 0
      · simp [memChunk, h0] at h
      · simp [memChunk, h0] at h
        exact ⟨u0, t0, rfl, rfl, h0, h⟩

/-- A line of the RSS chunk is a process-memory line of a present value. -/
lemma mem_rssChunk_ex {o : Option Int} {l : ReportLine} (h : l ∈ rssChunk o) :
    ∃ r, o = some r ∧ l = .procMem r := by
  cases o with
  | none => simp [rssChunk] at h
  | some r => simp [rssChunk] at h; exact ⟨r, rfl, h⟩

/-- A line of the load chunk is a load line of a present triple. -/
lemma mem_loadChunk_ex {o : Option (ℚ × ℚ × ℚ)} {l : ReportLine}
    (h : l ∈ loadChunk o) :
    ∃ a b c, o = some (a, b, c) ∧ l = .load a b c := by
  cases o with
  | none => simp [loadChunk] at h
  | some x =>
    obtain ⟨a, b, c⟩ := x
    simp [loadChunk] at h
    exact ⟨a, b, c, rfl, h⟩

/-- A line of the disk chunk is a disk line of a present statvfs triple. -/
lemma mem_diskChunk_ex {o : Option (Int × Int × Int)} {l : ReportLine}
    (h : l ∈ diskChunk o) :
    ∃ f bl bv, o = some (f, bl, bv) ∧
      l = .disk (max 0 (f * bl - f * bv)) (f * bl) := by
  cases o with
  | none => simp [diskChunk] at h
  | some x =>
    obtain ⟨f, bl, bv⟩ := x
    simp [diskChunk] at h
    exact ⟨f, bl, bv, rfl, h⟩

/-- An entry line starts with a dash, so it is never the disabled-section
header. -/
lemma entryLine_ne_disabledHeader (s : PluginStar) :
    entryLine s ≠ "未启用插件：" := by
  intro h
  have h2 := congrArg String.data h
  simp only [entryLine, String.data_append] at h2
  simp only [List.cons_append, List.nil_append] at h2
  injection h2 with hh _
  exact absurd hh (by decide)

/-- The counts line starts with a different character from the
disabled-section header. -/
lemma countsLine_ne_disabledHeader (a b : Nat) :
    countsLine a b ≠ "未启用插件：" := by
  intro h
  have h2 := congrArg String.data h
  simp only [countsLine, String.data_append] at h2
  simp only [List.cons_append, List.nil_append] at h2
  injection h2 with hh _
  exact absurd hh (by decide)

/-- When the enabled group is empty, the report still opens with the counts
line, the enabled-section header and the placeholder line `"- 无"`
(lines 151-157 of `main.py`). -/
lemma plugins_lines_placeholder (stars : List PluginStar)
    (h : stars.filter (·.activated) = []) :
    (_plugins_info_lines stars).take 3 =
      [countsLine 0 stars.length, "已启用插件：", "- 无"] := by
  simp only [_plugins_info_lines]
  rw [h]
  simp [List.take]

/-- When the disabled group is empty, the disabled-section header appears
nowhere in the report (the line-158 guard skips the whole section). -/
lemma plugins_lines_no_disabled_section (stars : List PluginStar)
    (h : stars.filter (fun s => !s.activated) = []) :
    "未启用插件：" ∉ _plugins_info_lines stars := by
  intro hmem
  simp only [_plugins_info_lines] at hmem
  rw [h] at hmem
  cases he : (stars.filter (·.activated)).isEmpty with
  | true =>
    simp only [he, List.isEmpty_nil, eq_self_iff_true, if_true, Bool.false_eq_true,
      List.cons_append, List.nil_append, List.append_nil, List.mem_cons,
      List.not_mem_nil, or_false] at hmem
    rcases hmem with hc | hl | hp
    · exact absurd hc.symm (countsLine_ne_disabledHeader _ _)
    · exact absurd hl (by decide)
    · exact absurd hp (by decide)
  | false =>
    simp only [he, List.isEmpty_nil, eq_self_iff_true, if_true, Bool.false_eq_true,
      if_false, List.cons_append, List.nil_append, List.append_nil, List.mem_cons,
      List.mem_map] at hmem
    rcases hmem with hc | hl | ⟨s, _, hs⟩
    · exact absurd hc.symm (countsLine_ne_disabledHeader _ _)
    · exact absurd hl (by decide)
    · exact absurd hs (entryLine_ne_disabledHeader s)

/-- C6 counterexample: with a single activated plugin the report renders
only one labeled list — the disabled-section header never appears, so the
report does not always render two labeled lists. -/
theorem plugins_two_lists_counterexample :
    "已启用插件：" ∈ _plugins_info_lines [⟨"a", "1", true⟩]
    ∧ "未启用插件：" ∉ _plugins_info_lines [⟨"a", "1", true⟩] := by
  decide

/-- C6 (amended): the plugin report partitions the entries by the
`activated` flag, sorts each group case-insensitively by name (stable sort
on the lowered name), heads the output with the counts line, always renders
the labeled enabled list (with the placeholder `"- 无"` when the enabled
group is empty), and renders the labeled disabled list exactly when the
disabled group is nonempty — present when it is nonempty, absent in full
when it is empty; for 3 plugins with 2 activated the counts line reads
`"插件状态：启用 2 / 总计 3"`. -/
theorem plugins_report_spec :
    ∀ stars : List PluginStar,
      (_plugins_info_lines stars).head? =
        some (countsLine (stars.filter (·.activated)).length stars.length)
      ∧ List.Sorted starRel (List.insertionSort starRel (stars.filter (·.activated)))
      ∧ (List.insertionSort starRel (stars.filter (·.activated))).Perm
          (stars.filter (·.activated))
      ∧ List.Sorted starRel
          (List.insertionSort starRel (stars.filter (fun s => !s.activated)))
      ∧ (List.insertionSort starRel (stars.filter (fun s => !s.activated))).Perm
          (stars.filter (fun s => !s.activated))
      ∧ "已启用插件：" ∈ _plugins_info_lines stars
      ∧ (stars.filter (fun s => !s.activated) ≠ [] →
          "未启用插件：" ∈ _plugins_info_lines stars)
      ∧ (stars.filter (·.activated) = [] →
          (_plugins_info_lines stars).take 3 =
            [countsLine 0 stars.length, "已启用插件：", "- 无"])
      ∧ (stars.filter (fun s => !s.activated) = [] →
          "未启用插件：" ∉ _plugins_info_lines stars)
      ∧ _plugins_info_lines [⟨"B", "1", true⟩, ⟨"a", "1", true⟩, ⟨"c", "1", false⟩] =
          ["插件状态：启用 2 / 总计 3", "已启用插件：", "- a (1)", "- B (1)",
           "未启用插件：", "- c (1)"] := by
  intro stars
  refine ⟨?_, List.sorted_insertionSort _ _, List.perm_insertionSort _ _,
    List.sorted_insertionSort _ _, List.perm_insertionSort _ _, ?_, ?_,
    plugins_lines_placeholder stars, plugins_lines_no_disabled_section stars,
    by decide⟩
  · simp [_plugins_info_lines]
  · simp [_plugins_info_lines]
  · intro h
    have he : (stars.filter (fun s => !s.activated)).isEmpty = false := by
      simpa [List.isEmpty_iff] using h
    simp [_plugins_info_lines, he]

/-- Witness for C6 (amended): the 3-plugin example with a nonempty disabled
group, an all-disabled list for the placeholder case, and an all-enabled
list for the omitted disabled section. -/
theorem plugins_report_spec_witness :
    (([(⟨"B", "1", true⟩ : PluginStar), ⟨"a", "1", true⟩,
        ⟨"c", "1", false⟩].filter (fun s => !s.activated) ≠ [])
      ∧ "未启用插件：" ∈
          _plugins_info_lines [⟨"B", "1", true⟩, ⟨"a", "1", true⟩, ⟨"c", "1", false⟩])
    ∧ (([(⟨"y", "2", false⟩ : PluginStar)].filter (·.activated) = [])
      ∧ (_plugins_info_lines [⟨"y", "2", false⟩]).take 3 =
          [countsLine 0 1, "已启用插件：", "- 无"])
    ∧ (([(⟨"b", "2", true⟩ : PluginStar)].filter (fun s => !s.activated) = [])
      ∧ "未启用插件：" ∉ _plugins_info_lines [⟨"b", "2", true⟩]) :=
  ⟨⟨by decide,
    (plugins_report_spec [⟨"B", "1", true⟩, ⟨"a", "1", true⟩,
       ⟨"c", "1", false⟩]).2.2.2.2.2.2.1 (by decide)⟩,
   ⟨by decide,
    (plugins_report_spec [⟨"y", "2", false⟩]).2.2.2.2.2.2.2.1 (by decide)⟩,
   ⟨by decide,
    (plugins_report_spec [⟨"b", "2", true⟩]).2.2.2.2.2.2.2.2.1 (by decide)⟩⟩

/-- C7: a sub-argument that, after stripping and lowering, matches none of
the recognized selector sets yields exactly the usage string. -/
theorem serverinfo_usage :
    ∀ args serverText pluginsText : String,
      pyLower (pyStrip args) ∉ (["", "info", "server", "服务器"] : List String) →
      pyLower (pyStrip args) ∉ (["plugins", "plugin", "pl", "插件"] : List String) →
      pyLower (pyStrip args) ∉ (["all", "full"] : List String) →
      serverinfo_dispatch args serverText pluginsText = usage_text := by
  intro args s p h1 h2 h3
  simp only [serverinfo_dispatch]
  rw [if_neg h1, if_neg h2, if_neg h3]

/-- Witness for C7 at the unrecognized sub-argument `"status"`. -/
theorem serverinfo_usage_witness :
    pyLower (pyStrip "status") ∉ (["", "info", "server", "服务器"] : List String)
    ∧ serverinfo_dispatch "status" "S" "P" = usage_text :=
  ⟨by decide, serverinfo_usage "status" "S" "P" (by decide) (by decide) (by decide)⟩

/-- A metrics record with every optional metric absent. -/
def emptyMetrics : Metrics where
  hostname := "h"
  platformDesc := "p"
  pythonVersion := "3"
  pid := 1
  uptimeText := "0:00:00"
  cpuCount := none
  cpuPercent := none
  memUsed := none
  memTotal := none
  procRss := none
  loadAvg := none
  diskStat := none

/-- C8: every metric accessor is a total function returning `none` on a
failed or malformed read, and the report builder always emits the header
while omitting exactly the lines whose metric is absent. -/
theorem best_effort_metrics :
    ∀ (m : Metrics) (st r2 : Option CpuSample) (a : CpuSample) (x : Option Int)
      (label : String) (values : List Int),
      ReportLine.header ∈ _server_info_lines m
      ∧ _get_cpu_percent_step st none r2 = (none, st)
      ∧ _get_cpu_percent_step none (some a) none = (none, none)
      ∧ (¬ (label = "cpu" ∧ 4 ≤ values.length) → _read_cpu_stat label values = none)
      ∧ _get_system_memory_bytes none x = (none, none)
      ∧ _get_system_memory_bytes x none = (none, none)
      ∧ _get_process_rss_bytes none = none
      ∧ (m.cpuPercent = none → ∀ p, ReportLine.cpu p ∉ _server_info_lines m)
      ∧ (m.memUsed = none → ∀ u t p, ReportLine.mem u t p ∉ _server_info_lines m)
      ∧ (m.procRss = none → ∀ r, ReportLine.procMem r ∉ _server_info_lines m) := by
  intro m st r2 a x label values
  refine ⟨?_, rfl, rfl, ?_, ?_, ?_, rfl, ?_, ?_, ?_⟩
  · simp [_server_info_lines]
  · intro h; simp only [_read_cpu_stat]; rw [if_neg h]
  · cases x <;> rfl
  · cases x <;> rfl
  · intro hc p hmem
    simp only [_server_info_lines, List.mem_append] at hmem
    rcases hmem with ((((hb | h1) | h2) | h3) | h4) | h5
    · simp at hb
    · obtain ⟨q, hq, _⟩ := mem_cpuChunk_ex h1
      rw [hc] at hq; exact Option.noConfusion hq
    · obtain ⟨u, t, _, _, _, he⟩ := mem_memChunk_ex h2; simp at he
    · obtain ⟨r, _, he⟩ := mem_rssChunk_ex h3; simp at he
    · obtain ⟨a1, b1, c1, _, he⟩ := mem_loadChunk_ex h4; simp at he
    · obtain ⟨f, bl, bv, _, he⟩ := mem_diskChunk_ex h5; simp at he
  · intro hu u t p hmem
    simp only [_server_info_lines, List.mem_append] at hmem
    rcases hmem with ((((hb | h1) | h2) | h3) | h4) | h5
    · simp at hb
    · obtain ⟨q, _, he⟩ := mem_cpuChunk_ex h1; simp at he
    · obtain ⟨u0, t0, hq, _, _, _⟩ := mem_memChunk_ex h2
      rw [hu] at hq; exact Option.noConfusion hq
    · obtain ⟨r, _, he⟩ := mem_rssChunk_ex h3; simp at he
    · obtain ⟨a1, b1, c1, _, he⟩ := mem_loadChunk_ex h4; simp at he
    · obtain ⟨f, bl, bv, _, he⟩ := mem_diskChunk_ex h5; simp at he
  · intro hr r hmem
    simp only [_server_info_lines, List.mem_append] at hmem
    rcases hmem with ((((hb | h1) | h2) | h3) | h4) | h5
    · simp at hb
    · obtain ⟨q, _, he⟩ := mem_cpuChunk_ex h1; simp at he
    · obtain ⟨u0, t0, _, _, _, he⟩ := mem_memChunk_ex h2; simp at he
    · obtain ⟨r0, hq, _⟩ := mem_rssChunk_ex h3
      rw [hr] at hq; exact Option.noConfusion hq
    · obtain ⟨a1, b1, c1, _, he⟩ := mem_loadChunk_ex h4; simp at he
    · obtain ⟨f, bl, bv, _, he⟩ := mem_diskChunk_ex h5; simp at he

/-- Witness for C8 on a metrics record with every metric absent and on a
mislabeled `/proc/stat` line. -/
theorem best_effort_metrics_witness :
    ReportLine.header ∈ _server_info_lines emptyMetrics
    ∧ ReportLine.cpu 50 ∉ _server_info_lines emptyMetrics
    ∧ _read_cpu_stat "cpux" [1, 2, 3, 4] = none := by
  have h := best_effort_metrics emptyMetrics none none (0, 0) none "cpux" [1, 2, 3, 4]
  exact ⟨h.1, h.2.2.2.2.2.2.2.1 rfl 50, h.2.2.2.1 (by decide)⟩

/-- C9: the memory line appears only when the used value is present and the
total is nonzero, and its percent is `used / total * 100`, so the division
in the report builder is never by zero. -/
theorem mem_line_safe :
    ∀ (m : Metrics) (u t : Int) (p : ℚ),
      ReportLine.mem u t p ∈ _server_info_lines m →
      t ≠ 0 ∧ p = ((u : ℚ) / (t : ℚ)) * 100 := by
  intro m u t p hmem
  simp only [_server_info_lines, List.mem_append] at hmem
  rcases hmem with ((((hb | h1) | h2) | h3) | h4) | h5
  · simp at hb
  · obtain ⟨q, _, he⟩ := mem_cpuChunk_ex h1; simp at he
  · obtain ⟨u0, t0, _, _, h0, he⟩ := mem_memChunk_ex h2
    simp only [ReportLine.mem.injEq] at he
    obtain ⟨rfl, rfl, rfl⟩ := he
    exact ⟨h0, rfl⟩
  · obtain ⟨r, _, he⟩ := mem_rssChunk_ex h3; simp at he
  · obtain ⟨a1, b1, c1, _, he⟩ := mem_loadChunk_ex h4; simp at he
  · obtain ⟨f, bl, bv, _, he⟩ := mem_diskChunk_ex h5; simp at he

/-- Witness for C9 on the concrete metrics of the memory example. -/
theorem mem_line_safe_witness :
    ReportLine.mem (600 * 1024) (1000 * 1024) 60 ∈ _server_info_lines exampleMetrics
    ∧ ((1000 * 1024 : Int) ≠ 0
        ∧ (60 : ℚ) = (((600 * 1024 : Int) : ℚ) / ((1000 * 1024 : Int) : ℚ)) * 100) := by
  have hm : ReportLine.mem (600 * 1024) (1000 * 1024) 60 ∈
      _server_info_lines exampleMetrics := by
    norm_num [_server_info_lines, exampleMetrics, memChunk, cpuChunk, rssChunk,
      loadChunk, diskChunk, _get_system_memory_bytes, List.mem_append]
  exact ⟨hm, mem_line_safe exampleMetrics _ _ _ hm⟩

/-- C10: the two empty-group cases render asymmetrically: an empty enabled
group still gets its header followed by the placeholder `"- 无"`, while an
empty disabled group's header and entries are omitted entirely. -/
theorem plugins_empty_asymmetry :
    ∀ stars : List PluginStar,
      (stars.filter (·.activated) = [] →
        (_plugins_info_lines stars).take 3 =
          [countsLine 0 stars.length, "已启用插件：", "- 无"])
      ∧ (stars.filter (fun s => !s.activated) = [] →
          "未启用插件：" ∉ _plugins_info_lines stars) :=
  fun stars =>
    ⟨plugins_lines_placeholder stars, plugins_lines_no_disabled_section stars⟩

/-- Witness for C10 on a single-disabled-plugin list (enabled group empty)
and a single-enabled-plugin list (disabled group empty). -/
theorem plugins_empty_asymmetry_witness :
    ((_plugins_info_lines [⟨"x", "1", false⟩]).take 3 =
      [countsLine 0 ([(⟨"x", "1", false⟩ : PluginStar)]).length, "已启用插件：", "- 无"])
    ∧ "未启用插件：" ∉ _plugins_info_lines [⟨"a", "1", true⟩] :=
  ⟨(plugins_empty_asymmetry [⟨"x", "1", false⟩]).1 (by decide),
   (plugins_empty_asymmetry [⟨"a", "1", true⟩]).2 (by decide)⟩
